import Mathlib

/-!
# Verification of the python-jss object factory and QuerySet collection

Shallow embedding of `src/jss/jamf_software_server.py` (the `JSS` session
primitives and the `JSSObjectFactory` dispatcher) and of
`src/jss/queryset.py` (the `QuerySet` homogeneous collection), together
with proofs settling the frozen specification claims.

HTTP traffic is modelled by an explicit `Server` response function plus a
request log, so that "issues no HTTP request" is a provable statement.
Python exceptions become an explicit error type; Python's implicit
truthiness tests (`if subset:`) are modelled explicitly.
-/

set_option autoImplicit false

namespace JSSModel

/-- An XML element as used by `xml.etree.ElementTree` in the source:
a tag, optional text, and a list of child elements. Attributes are not
modelled (no claim inspects them). -/
inductive Element where
  | mk (tag : String) (text : Option String) (children : List Element)

def Element.tag : Element → String
  | .mk t _ _ => t

def Element.text : Element → Option String
  | .mk _ x _ => x

def Element.children : Element → List Element
  | .mk _ _ c => c

/-- Model of `ElementTree.Element.find(tag)`: the first direct child with the given
tag, or `None`. -/
def Element.find (e : Element) (t : String) : Option Element :=
  e.children.find? (fun c => c.tag == t)

/-- Model of `ElementTree.tostring`: serialize an element to XML text. -/
def Element.tostring : Element → String
  | .mk tag text children =>
    "<" ++ tag ++ ">" ++ text.getD "" ++
      (children.attach.map (fun c => c.1.tostring)).foldl (· ++ ·) "" ++
      "</" ++ tag ++ ">"
decreasing_by
  simp only [Element.mk.sizeOf_spec]
  have := List.sizeOf_lt_of_mem c.2
  omega

/-- The Python exceptions raised by the embedded code. The source raises
`TypeError` and `ValueError` bare (no message);
`JSSMethodNotAllowedError` is raised with `obj_class.__class__.__name__`
(the metaclass name — a message no claim inspects, so not modelled). -/
inductive PyError where
  | typeError
  | valueError
  | indexError
  | attributeError
  | methodNotAllowed
  | jssGetError
  | jssPostError
  deriving DecidableEq, Repr

/-- One HTTP request issued through the `JSS` session primitives,
identified by verb and by the URL path handed to the primitive. -/
structure HttpReq where
  method : String
  url : String
  deriving DecidableEq, Repr

/-- Result of running a piece of the embedded code: the Python return
value or exception, together with the log of HTTP requests issued. -/
structure Outcome (α : Type) where
  result : Except PyError α
  requests : List HttpReq

/-- The remote JSS, seen through the session primitives: a GET on a URL
path yields a parsed XML tree (the success case; claims do not concern
transport failures), a POST yields an HTTP status and a response body. -/
structure Server where
  getResp : String → Element
  postResp : String → String → Nat × String

/-- The static per-type descriptor of a `JSSObject` subclass: the data the
factory dispatches on (`can_list`, `can_get`, `can_post`, `container`,
the URL template) plus identity with the `Computer` class, which the
listing shortcut tests with `obj_class is Computer`. -/
structure ObjClass where
  name : String
  can_list : Bool
  can_get : Bool
  can_post : Bool
  container : Option String
  urlBase : String
  isComputer : Bool

/-- The query argument of `JSSObjectFactory.get_object`, dispatched on by
runtime type in the source: absent (`None`), `int`, `basestring`,
`ElementTree.Element`, or any other Python value. -/
inductive Data where
  | none
  | int (i : Nat)
  | str (s : String)
  | xml (e : Element)
  | other

/-- True exactly for the identifier and name cases (Python
`isinstance(data, (basestring, int))`). -/
def Data.isFetch : Data → Bool
  | .int _ => true
  | .str _ => true
  | _ => false

/-- Modelled from the spec: `JSSObject.get_url` lives in `jssobject.py`,
which is not among the sources here. Per the spec it returns the
collection URL for an absent argument and the instance URL — identifier
or name segment — otherwise ("Builds the instance URL"). The factory
never calls it with an XML payload or other value. -/
def ObjClass.get_url (cls : ObjClass) : Data → String
  | .none => cls.urlBase
  | .int i => cls.urlBase ++ "/id/" ++ toString i
  | .str s => cls.urlBase ++ "/name/" ++ s
  | _ => cls.urlBase

/-- Modelled from the spec: `JSSObject.get_post_url` lives in
`jssobject.py`, not among the sources here. Per the spec, creation POSTs
go "to the collection URL with identifier fragment `/id/0`". -/
def ObjClass.get_post_url (cls : ObjClass) : String :=
  cls.urlBase ++ "/id/0"

/-- The `subset` argument of `get_object`: absent (`None`), a list of
tags, an `&`-delimited string, or any other Python value carrying only
its truthiness (e.g. `other false` stands for `0`, `()`, `False`…). -/
inductive SubsetArg where
  | none
  | list (l : List String)
  | str (s : String)
  | other (truthy : Bool)
  deriving DecidableEq, Repr

/-- Python `str.upper` (ASCII range — the tags in play are ASCII),
implemented over the character list so that it evaluates by kernel
reduction. -/
def pyUpper (s : String) : String :=
  ⟨s.data.map Char.toUpper⟩

/-- Python `str.split("&")`, the character-list groups between `&`
separators (empty groups kept, as in Python). -/
def pySplitAmpAux : List Char → List (List Char)
  | [] => [[]]
  | c :: cs =>
    if c = '&' then
      [] :: pySplitAmpAux cs
    else
      match pySplitAmpAux cs with
      | [] => [[c]]
      | g :: gs => (c :: g) :: gs

def pySplitAmp (s : String) : List String :=
  (pySplitAmpAux s.data).map (fun cs => ⟨cs⟩)

/-- Python truthiness of a subset argument (`if subset:`). -/
def SubsetArg.truthy : SubsetArg → Bool
  | .none => false
  | .list l => !l.isEmpty
  | .str s => !s.isEmpty
  | .other t => t

/-- Lines 722–727 of `jamf_software_server.py`: a truthy subset that is
not a list is split on `&` if it is a string and otherwise raises
`TypeError`; a falsy subset passes through unchanged. -/
def normalizeSubset (subset : SubsetArg) : Except PyError SubsetArg :=
  if subset.truthy then
    match subset with
    | .list l => .ok (.list l)
    | .str s => .ok (.list (pySplitAmp s))
    | .other _ => .error .typeError
    | .none => .ok .none
  else
    .ok subset

/-- The tags actually carried by a (normalized) subset; the factory only
reads them behind a truthiness guard, where the subset is a list. -/
def SubsetArg.tags : SubsetArg → List String
  | .list l => l
  | _ => []

/-- Line 734–735: `(subset and len(subset) == 1 and subset[0].upper() ==
"BASIC") and obj_class is Computer`. After normalization a truthy subset
is a list, so the condition holds exactly for a one-element list whose
tag uppercases to `"BASIC"`, on the `Computer` class. -/
def basicShortcut (subset : SubsetArg) (cls : ObjClass) : Bool :=
  (match subset with
   | .list [t] => pyUpper t == "BASIC"
   | _ => false) && cls.isComputer

/-- Lines 758–761: a truthy subset on an individual fetch gets
`"general"` appended unless present, and the URL gains
`"/subset/" ++ "&".join(subset)`. -/
def fetchSubsetUrl (url : String) (subset : SubsetArg) : String :=
  if subset.truthy then
    let l := subset.tags
    let l := if l.contains "general" then l else l ++ ["general"]
    url ++ "/subset/" ++ String.intercalate "&" l
  else
    url

/-- Python `dict` built left to right: a later duplicate key overrides the
earlier value in place. -/
def dictInsert (d : List (String × Option String)) (k : String)
    (v : Option String) : List (String × Option String) :=
  if d.any (fun p => p.1 == k) then
    d.map (fun p => if p.1 == k then (k, v) else p)
  else
    d ++ [(k, v)]

def dictOf (l : List (String × Option String)) : List (String × Option String) :=
  l.foldl (fun d p => dictInsert d p.1 p.2) []

/-- The flat record `{i.tag: i.text for i in response_object}` built for
one listing entry (a `JSSListData` payload). -/
def elemRecord (e : Element) : List (String × Option String) :=
  dictOf (e.children.map (fun c => (c.tag, c.text)))

/-- A value returned by the factory: a single resource object wrapping the
response tree, or a `JSSObjectList` of flat listing records. -/
inductive JSSResult where
  | object (clsName : String) (data : Element)
  | objectList (clsName : String) (items : List (List (String × Option String)))

/-- Lines 787–796, `JSSObjectFactory._build_jss_object_list`: every child
of the response except `"size"`-tagged ones becomes a flat tag-to-text
record (iterating an `Element` yields child elements, so the
`item is not None` test in the source never excludes anything). -/
def build_jss_object_list (response : Element) (cls : ObjClass) : JSSResult :=
  let response_objects := response.children.filter (fun item => item.tag != "size")
  .objectList cls.name (response_objects.map elemRecord)

/-- Maximal digit prefix of a character list, with the remainder. -/
def digitSpan : List Char → List Char × List Char
  | [] => ([], [])
  | c :: cs =>
    if c.isDigit then
      let (d, r) := digitSpan cs
      (c :: d, r)
    else
      ([], c :: cs)

/-- Numeric value of a digit string (Python `int`). -/
def digitsToNat (ds : List Char) : Nat :=
  ds.foldl (fun n c => n * 10 + (c.toNat - 48)) 0

/-- Model of `re.search(r"<id>([0-9]+)</id>", text)`: at each position, a match
requires the literal `<id>`, then one or more digits, then `</id>`; the
leftmost matching position wins and yields the digit group. (Backtracking
inside `[0-9]+` cannot help: a shorter digit run is followed by a digit,
never by `<`.) -/
def searchIdAux : List Char → Option (List Char)
  | [] => Option.none
  | c :: cs =>
    if "<id>".toList.isPrefixOf (c :: cs) then
      let (ds, r) := digitSpan ((c :: cs).drop 4)
      if ds ≠ [] ∧ "</id>".toList.isPrefixOf r then
        Option.some ds
      else
        searchIdAux cs
    else
      searchIdAux cs

/-- Line 270: `int(re.search(r"<id>([0-9]+)</id>", jss_results).group(1))`,
as an `Option` (a missing match makes the source die with
`AttributeError` on `.group`). -/
def searchId (s : String) : Option Nat :=
  (searchIdAux s.toList).map digitsToNat

/-- Lines 731–752 of `get_object`, the `data is None` branch: list+get
types GET the collection URL (with the documented `Computer`/`"basic"`
shortcut), descend into the declared container tag and wrap the items;
get-only types GET the same URL and wrap a single object; all other
types raise `JSSMethodNotAllowedError` with no request issued. A
declared container tag missing from the response leaves `result = None`,
which the list builder then fails to iterate (`TypeError`). -/
def listObjects (server : Server) (cls : ObjClass) (subset : SubsetArg) :
    Outcome JSSResult :=
  let url := cls.get_url .none
  if cls.can_list && cls.can_get then
    let url := if basicShortcut subset cls then url ++ "/subset/basic" else url
    let result := server.getResp url
    match cls.container with
    | Option.some c =>
      match result.find c with
      | Option.some inner =>
        ⟨.ok (build_jss_object_list inner cls), [⟨"GET", url⟩]⟩
      | Option.none =>
        ⟨.error .typeError, [⟨"GET", url⟩]⟩
    | Option.none =>
      ⟨.ok (build_jss_object_list result cls), [⟨"GET", url⟩]⟩
  else if cls.can_get then
    ⟨.ok (.object cls.name (server.getResp url)), [⟨"GET", url⟩]⟩
  else
    ⟨.error .methodNotAllowed, []⟩

/-- Lines 755–774 of `get_object`, the identifier/name branch: get
support is required; the instance URL gains the subset suffix; a
`"size"` child in the response routes to the heterogeneous list,
otherwise the response becomes one resource object. -/
def retrieveIndividual (server : Server) (cls : ObjClass) (data : Data)
    (subset : SubsetArg) : Outcome JSSResult :=
  if cls.can_get then
    let url := fetchSubsetUrl (cls.get_url data) subset
    let xmldata := server.getResp url
    if (xmldata.find "size").isSome then
      ⟨.ok (build_jss_object_list xmldata cls), [⟨"GET", url⟩]⟩
    else
      ⟨.ok (.object cls.name xmldata), [⟨"GET", url⟩]⟩
  else
    ⟨.error .methodNotAllowed, []⟩

/-- Lines 256–272, `JSS.post`: serialize the payload, POST it, translate a
status ≥ 400 into `JSSPostError`, extract the new identifier with the
`<id>([0-9]+)</id>` pattern, and re-fetch the object by that identifier
through `factory.get_object(obj_class, id_)` (query `id`, no subset,
which lands in the individual-retrieval branch). -/
def jss_post (server : Server) (cls : ObjClass) (url_path : String)
    (payload : Element) : Outcome JSSResult :=
  let body := payload.tostring
  let (status, text) := server.postResp url_path body
  let postReq : HttpReq := ⟨"POST", url_path⟩
  if status ≥ 400 then
    ⟨.error .jssPostError, [postReq]⟩
  else
    match searchId text with
    | Option.none => ⟨.error .attributeError, [postReq]⟩
    | Option.some id =>
      let o := retrieveIndividual server cls (.int id) .none
      ⟨o.result, postReq :: o.requests⟩

/-- Lines 685–785, `JSSObjectFactory.get_object`: normalize the subset,
then dispatch on the runtime type of `data` — absent, identifier/name,
creation payload (post support required), or `ValueError` for anything
else. -/
def get_object (server : Server) (cls : ObjClass) (data : Data)
    (subset : SubsetArg) : Outcome JSSResult :=
  match normalizeSubset subset with
  | .error e => ⟨.error e, []⟩
  | .ok sub =>
    match data with
    | .none => listObjects server cls sub
    | .int i => retrieveIndividual server cls (.int i) sub
    | .str s => retrieveIndividual server cls (.str s) sub
    | .xml payload =>
      if cls.can_post then
        jss_post server cls cls.get_post_url payload
      else
        ⟨.error .methodNotAllowed, []⟩
    | .other => ⟨.error .valueError, []⟩

/-! ## QuerySet (`src/jss/queryset.py`) -/

/-- Python values the `cached` marker of a `JSSObject` can hold. The
marker type itself lives in `jssobject.py` (not among the sources);
per the spec it is "absent or last-fetch time", and `invalidate` in
`queryset.py` makes it absent by assigning `None`. A boolean case is
kept because `__str__` tests `isinstance(item.cached, bool)`. -/
inductive PyVal where
  | pyNone
  | pyBool (b : Bool)
  | pyTime (t : Nat)
  deriving DecidableEq, Repr

/-- One member of a `QuerySet`: its Python class, `id`, `name` and
`cached` marker — the attributes `queryset.py` reads. -/
structure QSItem where
  cls : String
  id : Nat
  name : String
  cached : PyVal
  deriving DecidableEq, Repr

/-- A constructed `QuerySet`: the member list plus `contained_class`
(`self[0].__class__`). -/
structure QuerySet where
  items : List QSItem
  contained : String
  deriving DecidableEq, Repr

/-- Lines 46–55, `QuerySet.__init__`: unless the set
`{i.__class__ for i in objects}` has exactly one element, raise
`ValueError`; then store the list and remember `self[0].__class__`.
No member method is called and no HTTP request is issued — the
constructor takes no `Server`. (The empty-list arm is unreachable:
one distinct class forces a nonempty list; `self[0]` would raise
`IndexError`.) -/
def querySetInit (objects : List QSItem) : Except PyError QuerySet :=
  if (objects.map (fun i => i.cls)).toFinset.card = 1 then
    match objects with
    | [] => .error .indexError
    | o :: _ => .ok ⟨objects, o.cls⟩
  else
    .error .valueError

/-- Line 107, `QuerySet.invalidate`: assign `None` to every member's
`cached` marker. -/
def QuerySet.invalidate (items : List QSItem) : List QSItem :=
  items.map (fun i => { i with cached := PyVal.pyNone })

/-- Lines 70–71 of `__str__`: the cached-status cell is
`str(item.cached if isinstance(item.cached, bool) else 'True')` — the
string form of the marker when it is a boolean, and the literal
`'True'` for every other value (`None`, a datetime, anything). -/
def cachedStatus (item : QSItem) : String :=
  match item.cached with
  | .pyBool b => if b then "True" else "False"
  | _ => "True"

/-- Python `"{0:>{1}}".format(s, w)`: right-align in a field of width
`w` (no truncation). -/
def padLeft (s : String) (w : Nat) : String :=
  String.mk (List.replicate (w - s.length) ' ') ++ s

/-- Model of `STR_FMT = "{0:>{1}} | {2:>{3}} | {4:>{5}}"` (line 31). -/
def strFmt (a : String) (wa : Nat) (b : String) (wb : Nat)
    (c : String) (wc : Nat) : String :=
  padLeft a wa ++ " | " ++ padLeft b wb ++ " | " ++ padLeft c wc

/-- Python `max` over a list (used only on nonempty lists, as in
`__str__`, where members exist by the constructor invariant). -/
def listMax (l : List Nat) : Nat :=
  l.foldl Nat.max 0

/-- One data row of the tabular rendering (line 72–73). -/
def querySetRow (idMax nameMax : Nat) (item : QSItem) : String :=
  strFmt (toString item.id) idMax item.name nameMax (cachedStatus item)
    ("Cached".length)

/-- Lines 57–74, `QuerySet.__str__`: a title line, a bar, a column-label
line, a bar, then one row per member, each column right-aligned to the
widest entry, joined with newlines. -/
def querySetStr (contained : String) (items : List QSItem) : String :=
  let nameMax := listMax (items.map (fun i => i.name.length))
  let idMax := listMax (items.map (fun i => (toString i.id).length))
  let lbl := strFmt "ID" idMax "Name" nameMax "Cached" ("Cached".length)
  let bar := String.mk (List.replicate lbl.length '-')
  String.intercalate "\n"
    ([contained ++ " QuerySet", bar, lbl, bar] ++
      items.map (querySetRow idMax nameMax))

/-! ## Concrete fixtures

Descriptor values used to evaluate the model at concrete inputs. The
verb tables of the ~60 concrete types live in `jssobjects.py` (not among
the sources); `singletonType` has the shape of the repository's
non-container singleton types (get supported, listing not), which the
`get_object` docstring describes as "for non-container objects, return
all data". -/

def computerType : ObjClass :=
  ⟨"Computer", true, true, true, Option.some "computers", "/computers", true⟩

def singletonType : ObjClass :=
  ⟨"ActivationCode", false, true, false, Option.none, "/activationcode", false⟩

def lockedType : ObjClass :=
  ⟨"Locked", false, false, false, Option.none, "/locked", false⟩

def stubResponse : Element := .mk "activation_code" Option.none []

def stubServer : Server :=
  ⟨fun _ => stubResponse,
   fun _ _ => (201, "<activation_code><id>7</id></activation_code>")⟩

/-! ## Helper lemmas -/

theorem basicShortcut_eq_true_iff (sub : SubsetArg) (cls : ObjClass) :
    basicShortcut sub cls = true ↔
      ((∃ t, sub = .list [t] ∧ pyUpper t = "BASIC") ∧ cls.isComputer = true) := by
  unfold basicShortcut
  rcases sub with _ | l | s | t
  · simp
  · match l with
    | [] => simp
    | [t] =>
      simp only [Bool.and_eq_true, beq_iff_eq]
      constructor
      · rintro ⟨h1, h2⟩
        exact ⟨⟨t, rfl, h1⟩, h2⟩
      · rintro ⟨⟨t', ht', hup⟩, h2⟩
        cases ht'
        exact ⟨hup, h2⟩
    | t1 :: t2 :: rest => simp
  · simp
  · simp

theorem string_ne_append_of_length_pos (s t : String) (h : 0 < t.length) :
    s ≠ s ++ t := by
  intro heq
  have := congrArg String.length heq
  rw [String.length_append] at this
  omega

theorem map_toFinset_card_eq_one {α β : Type} [DecidableEq β] (f : α → β)
    (l : List α) :
    (l.map f).toFinset.card = 1 ↔
      l ≠ [] ∧ ∀ a ∈ l, ∀ b ∈ l, f a = f b := by
  constructor
  · intro h
    rw [Finset.card_eq_one] at h
    obtain ⟨x, hx⟩ := h
    have hmem : ∀ a ∈ l, f a = x := by
      intro a ha
      have hfa : f a ∈ (l.map f).toFinset := by
        rw [List.mem_toFinset]
        exact List.mem_map_of_mem f ha
      rw [hx] at hfa
      simpa using hfa
    constructor
    · rintro rfl
      simp at hx
      exact absurd hx.symm (Finset.singleton_ne_empty x)
    · intro a ha b hb
      rw [hmem a ha, hmem b hb]
  · rintro ⟨hne, hall⟩
    obtain ⟨o, rest, rfl⟩ := List.exists_cons_of_ne_nil hne
    rw [Finset.card_eq_one]
    refine ⟨f o, ?_⟩
    ext y
    simp only [List.mem_toFinset, List.mem_map, Finset.mem_singleton]
    constructor
    · rintro ⟨a, ha, rfl⟩
      exact hall a ha o (by simp)
    · rintro rfl
      exact ⟨o, by simp, rfl⟩

/-! ## Claims -/

/-- Claim C6: a list response whose children are entity elements plus one
`"size"` element yields a heterogeneous collection of exactly the entity
items, each a flat tag-to-text record, and never a `"size"` item. -/
theorem claim6_list_excludes_size (cls : ObjClass) (tag : String)
    (text : Option String) (pre rest : List Element) (sizeElem : Element)
    (hsize : sizeElem.tag = "size")
    (hpre : ∀ e ∈ pre, e.tag ≠ "size")
    (hrest : ∀ e ∈ rest, e.tag ≠ "size") :
    build_jss_object_list (.mk tag text (pre ++ sizeElem :: rest)) cls =
      .objectList cls.name ((pre ++ rest).map elemRecord) := by
  unfold build_jss_object_list
  have hchildren :
      (Element.mk tag text (pre ++ sizeElem :: rest)).children =
        pre ++ sizeElem :: rest := rfl
  rw [hchildren]
  have hfil :
      (pre ++ sizeElem :: rest).filter (fun item => item.tag != "size") =
        pre ++ rest := by
    rw [List.filter_append, List.filter_cons]
    have hsz : (sizeElem.tag != "size") = false := by
      simp [hsize]
    rw [hsz]
    simp only [Bool.false_eq_true, if_false]
    rw [List.filter_eq_self.mpr, List.filter_eq_self.mpr]
    · intro a ha
      simpa using hrest a ha
    · intro a ha
      simpa using hpre a ha
  rw [hfil]

def entityElem (n : Nat) : Element :=
  .mk "computer" Option.none
    [.mk "id" (Option.some (toString n)) [],
     .mk "name" (Option.some ("c" ++ toString n)) []]

def sizeSix : Element := .mk "size" (Option.some "5") []

/-- Witness for C6 at a concrete five-entity listing. -/
theorem claim6_witness :
    build_jss_object_list
        (.mk "computers" Option.none
          ([entityElem 1, entityElem 2, entityElem 3, entityElem 4,
            entityElem 5] ++ sizeSix :: []))
        computerType =
      .objectList "Computer"
        (([entityElem 1, entityElem 2, entityElem 3, entityElem 4,
           entityElem 5] ++ ([] : List Element)).map elemRecord) ∧
    (([entityElem 1, entityElem 2, entityElem 3, entityElem 4,
       entityElem 5] ++ ([] : List Element)).map elemRecord).length = 5 :=
  ⟨claim6_list_excludes_size computerType "computers" Option.none
      [entityElem 1, entityElem 2, entityElem 3, entityElem 4, entityElem 5]
      [] sizeSix rfl (by decide) (by decide),
   rfl⟩

/-- Claim C7: `QuerySet` construction succeeds exactly on a non-empty
single-class sequence; a sequence mixing two classes yields `ValueError`
(the constructor touches no member: it takes no `Server` and issues no
request). -/
theorem claim7_queryset_init (objects : List QSItem) :
    ((∃ qs, querySetInit objects = .ok qs) ↔
      objects ≠ [] ∧ ∀ a ∈ objects, ∀ b ∈ objects, a.cls = b.cls) ∧
    ((∃ a ∈ objects, ∃ b ∈ objects, a.cls ≠ b.cls) →
      querySetInit objects = .error .valueError) := by
  have key := map_toFinset_card_eq_one (fun i : QSItem => i.cls) objects
  constructor
  · constructor
    · rintro ⟨qs, hqs⟩
      by_cases h : (objects.map (fun i => i.cls)).toFinset.card = 1
      · exact key.mp h
      · unfold querySetInit at hqs
        rw [if_neg h] at hqs
        exact Except.noConfusion hqs
    · rintro ⟨hne, hall⟩
      have h1 := key.mpr ⟨hne, hall⟩
      obtain ⟨o, rest, rfl⟩ := List.exists_cons_of_ne_nil hne
      unfold querySetInit
      rw [if_pos h1]
      exact ⟨⟨o :: rest, o.cls⟩, rfl⟩
  · rintro ⟨a, ha, b, hb, hab⟩
    have h : ¬(objects.map (fun i => i.cls)).toFinset.card = 1 := by
      intro h1
      exact hab ((key.mp h1).2 a ha b hb)
    unfold querySetInit
    rw [if_neg h]

/-- Witness for C7: a two-class mix fails with `ValueError`; a
single-class pair succeeds. -/
theorem claim7_witness :
    querySetInit [⟨"Computer", 1, "a", .pyNone⟩, ⟨"Policy", 2, "b", .pyNone⟩] =
      .error .valueError ∧
    (∃ qs, querySetInit
        [⟨"Computer", 1, "a", .pyNone⟩, ⟨"Computer", 2, "b", .pyNone⟩] =
      .ok qs) :=
  ⟨(claim7_queryset_init
      [⟨"Computer", 1, "a", .pyNone⟩, ⟨"Policy", 2, "b", .pyNone⟩]).2
      ⟨⟨"Computer", 1, "a", .pyNone⟩, by simp,
       ⟨"Policy", 2, "b", .pyNone⟩, by simp, by decide⟩,
   (claim7_queryset_init
      [⟨"Computer", 1, "a", .pyNone⟩, ⟨"Computer", 2, "b", .pyNone⟩]).1.mpr
      ⟨by decide, by decide⟩⟩

/-- Claim C1 counterexample: on a descriptor that disallows listing but
supports get, a no-argument call does not raise Method-not-allowed — it
issues one GET on the type URL and returns a single object (lines
747–749, the `elif obj_class.can_get` branch). -/
theorem claim1_counterexample :
    singletonType.can_list = false ∧
    (get_object stubServer singletonType .none .none).requests =
      [⟨"GET", "/activationcode"⟩] ∧
    (get_object stubServer singletonType .none .none).result =
      .ok (.object "ActivationCode" stubResponse) :=
  ⟨rfl, rfl, rfl⟩

/-- Claim C1 (amended): a no-argument call on a type whose descriptor
disallows listing raises Method-not-allowed with no HTTP request exactly
when the descriptor also disallows get; when get is allowed, one GET on
the type URL is issued and a single object is returned. -/
theorem claim1_method_not_allowed_amended (server : Server) (cls : ObjClass)
    (subset sub : SubsetArg)
    (hnorm : normalizeSubset subset = .ok sub)
    (hlist : cls.can_list = false) :
    (cls.can_get = false →
      get_object server cls .none subset = ⟨.error .methodNotAllowed, []⟩) ∧
    (cls.can_get = true →
      get_object server cls .none subset =
        ⟨.ok (.object cls.name (server.getResp (cls.get_url .none))),
         [⟨"GET", cls.get_url .none⟩]⟩) := by
  unfold get_object
  rw [hnorm]
  unfold listObjects
  rw [hlist]
  constructor
  · intro hget
    rw [hget]
    rfl
  · intro hget
    rw [hget]
    rfl

/-- Witness for the amended C1: a type allowing neither list nor get
raises Method-not-allowed with an empty request log. -/
theorem claim1_witness :
    lockedType.can_list = false ∧ lockedType.can_get = false ∧
    get_object stubServer lockedType .none .none =
      ⟨.error .methodNotAllowed, []⟩ :=
  ⟨rfl, rfl,
   (claim1_method_not_allowed_amended stubServer lockedType .none .none rfl
      rfl).1 rfl⟩

/-- Claim C8 counterexample: the subset argument `0` — present, neither a
list nor a string, but falsy — raises nothing: the call proceeds and
issues its GET (the source guards the type check with `if subset:`). -/
theorem claim8_counterexample :
    (get_object stubServer singletonType .none (.other false)).result =
      .ok (.object "ActivationCode" stubResponse) ∧
    (get_object stubServer singletonType .none (.other false)).result ≠
      .error .typeError ∧
    (get_object stubServer singletonType .none (.other false)).requests =
      [⟨"GET", "/activationcode"⟩] := by
  refine ⟨rfl, ?_, rfl⟩
  intro h
  exact Except.noConfusion h

/-- Claim C8 (amended): a truthy subset argument that is neither a list nor
a string raises `TypeError` before any HTTP request, for every query
argument (a falsy one is treated as no subset); a query argument that is
none of absent/integer/string/XML raises `ValueError` before any HTTP
request. -/
theorem claim8_invalid_input_amended (server : Server) (cls : ObjClass) :
    (∀ data, get_object server cls data (.other true) =
      ⟨.error .typeError, []⟩) ∧
    (∀ subset sub, normalizeSubset subset = .ok sub →
      get_object server cls .other subset = ⟨.error .valueError, []⟩) := by
  constructor
  · intro data
    rfl
  · intro subset sub hnorm
    unfold get_object
    rw [hnorm]

/-- Witness for the amended C8 at concrete arguments. -/
theorem claim8_witness :
    get_object stubServer singletonType (.int 3) (.other true) =
      ⟨.error .typeError, []⟩ ∧
    normalizeSubset .none = .ok .none ∧
    get_object stubServer singletonType .other .none =
      ⟨.error .valueError, []⟩ :=
  ⟨(claim8_invalid_input_amended stubServer singletonType).1 (.int 3),
   rfl,
   (claim8_invalid_input_amended stubServer singletonType).2 .none .none rfl⟩

/-- Claim C2 counterexample: a member whose cache marker is absent (set to
`None` by `invalidate`, line 107) renders `"True"` in the cached-status
column, not `"not yet cached"` — the rendering expression produces only
`str(bool)` or the literal `'True'`. -/
theorem claim2_counterexample :
    (QuerySet.invalidate [⟨"Computer", 1, "mac", .pyTime 5⟩]).map
        (fun i => i.cached) = [PyVal.pyNone] ∧
    querySetStr "Computer" (QuerySet.invalidate [⟨"Computer", 1, "mac", .pyTime 5⟩]) =
      "Computer QuerySet\n------------------\nID | Name | Cached\n------------------\n1 | mac |   True" ∧
    cachedStatus ⟨"Computer", 1, "mac", .pyNone⟩ = "True" ∧
    cachedStatus ⟨"Computer", 1, "mac", .pyNone⟩ ≠ "not yet cached" :=
  ⟨rfl, rfl, rfl, by decide⟩

/-- Claim C2 (amended): for every member whose marker is not a boolean —
in particular an absent (`None`) marker and any present timestamp — the
cached-status column shows the literal `"True"`; `"not yet cached"` is
never produced (a boolean marker would show `"True"`/`"False"`). -/
theorem claim2_cached_column_amended (contained : String) (items : List QSItem)
    (h : ∀ item ∈ items, ∀ b, item.cached ≠ PyVal.pyBool b) :
    querySetStr contained items =
      (let nameMax := listMax (items.map (fun i => i.name.length))
       let idMax := listMax (items.map (fun i => (toString i.id).length))
       let lbl := strFmt "ID" idMax "Name" nameMax "Cached" ("Cached".length)
       let bar := String.mk (List.replicate lbl.length '-')
       String.intercalate "\n"
         ([contained ++ " QuerySet", bar, lbl, bar] ++
           items.map (fun item =>
             strFmt (toString item.id) idMax item.name nameMax "True"
               ("Cached".length)))) := by
  simp only [querySetStr]
  congr 1
  congr 1
  apply List.map_congr_left
  intro item hmem
  have hcs : cachedStatus item = "True" := by
    rcases hc : item.cached with _ | b | t
    · simp [cachedStatus, hc]
    · exact absurd hc (h item hmem b)
    · simp [cachedStatus, hc]
  unfold querySetRow
  rw [hcs]

/-- Witness for the amended C2 at a concrete two-member QuerySet, one
member invalidated and one freshly fetched. -/
theorem claim2_witness :
    (∀ item ∈ ([⟨"Computer", 1, "mac", .pyNone⟩,
                ⟨"Computer", 2, "pro", .pyTime 3⟩] : List QSItem),
        ∀ b, item.cached ≠ PyVal.pyBool b) ∧
    querySetStr "Computer"
        [⟨"Computer", 1, "mac", .pyNone⟩, ⟨"Computer", 2, "pro", .pyTime 3⟩] =
      (let items : List QSItem :=
         [⟨"Computer", 1, "mac", .pyNone⟩, ⟨"Computer", 2, "pro", .pyTime 3⟩]
       let nameMax := listMax (items.map (fun i => i.name.length))
       let idMax := listMax (items.map (fun i => (toString i.id).length))
       let lbl := strFmt "ID" idMax "Name" nameMax "Cached" ("Cached".length)
       let bar := String.mk (List.replicate lbl.length '-')
       String.intercalate "\n"
         ([("Computer" ++ " QuerySet"), bar, lbl, bar] ++
           items.map (fun item =>
             strFmt (toString item.id) idMax item.name nameMax "True"
               ("Cached".length)))) :=
  ⟨by decide,
   claim2_cached_column_amended "Computer"
     [⟨"Computer", 1, "mac", .pyNone⟩, ⟨"Computer", 2, "pro", .pyTime 3⟩]
     (by decide)⟩

/-- The request log of an individual retrieval on a get-supporting type:
one GET on the (possibly subset-suffixed) instance URL, whichever way the
size routing goes. -/
theorem retrieveIndividual_requests (server : Server) (cls : ObjClass)
    (data : Data) (sub : SubsetArg) (hget : cls.can_get = true) :
    (retrieveIndividual server cls data sub).requests =
      [⟨"GET", fetchSubsetUrl (cls.get_url data) sub⟩] := by
  unfold retrieveIndividual
  rw [hget]
  dsimp only
  rw [if_pos (rfl : (true : Bool) = true)]
  split <;> rfl

/-- The result of an individual retrieval on a get-supporting type,
as the size-routing conditional. -/
theorem retrieveIndividual_result (server : Server) (cls : ObjClass)
    (data : Data) (sub : SubsetArg) (hget : cls.can_get = true) :
    (retrieveIndividual server cls data sub).result =
      (if ((server.getResp (fetchSubsetUrl (cls.get_url data) sub)).find
          "size").isSome then
        .ok (build_jss_object_list
          (server.getResp (fetchSubsetUrl (cls.get_url data) sub)) cls)
      else
        .ok (.object cls.name
          (server.getResp (fetchSubsetUrl (cls.get_url data) sub)))) := by
  unfold retrieveIndividual
  rw [hget]
  dsimp only
  rw [if_pos (rfl : (true : Bool) = true)]
  split <;> rfl

/-- An identifier or name query routes `get_object` to the individual
retrieval branch with the normalized subset. -/
theorem get_object_fetch_eq (server : Server) (cls : ObjClass) (data : Data)
    (subset sub : SubsetArg) (hfetch : data.isFetch = true)
    (hnorm : normalizeSubset subset = .ok sub) :
    get_object server cls data subset =
      retrieveIndividual server cls data sub := by
  cases data with
  | int i => unfold get_object; rw [hnorm]
  | str s => unfold get_object; rw [hnorm]
  | none => exact absurd hfetch (by simp [Data.isFetch])
  | xml e => exact absurd hfetch (by simp [Data.isFetch])
  | other => exact absurd hfetch (by simp [Data.isFetch])

/-- Claim C3: on a 201 create response whose body carries the
`<id>([0-9]+)</id>` pattern, `JSS.post` re-fetches the object by the
extracted identifier: it issues the POST and then one GET on the
instance URL of that identifier, and returns the object built from the
GET response — the same result the factory's identifier fetch produces —
not an object built from the POST body. -/
theorem claim3_post_refetches (server : Server) (cls : ObjClass)
    (url_path : String) (payload : Element) (id status : Nat) (text : String)
    (hresp : server.postResp url_path payload.tostring = (status, text))
    (h201 : status = 201)
    (hid : searchId text = Option.some id)
    (hget : cls.can_get = true)
    (hnosize : (server.getResp (cls.get_url (.int id))).find "size" =
      Option.none) :
    jss_post server cls url_path payload =
      ⟨.ok (.object cls.name (server.getResp (cls.get_url (.int id)))),
       [⟨"POST", url_path⟩, ⟨"GET", cls.get_url (.int id)⟩]⟩ ∧
    (jss_post server cls url_path payload).result =
      (get_object server cls (.int id) .none).result := by
  have hres : (retrieveIndividual server cls (.int id) SubsetArg.none).result =
      .ok (.object cls.name (server.getResp (cls.get_url (.int id)))) := by
    rw [retrieveIndividual_result server cls (.int id) .none hget]
    have hurl : fetchSubsetUrl (cls.get_url (.int id)) SubsetArg.none =
        cls.get_url (.int id) := rfl
    rw [hurl, hnosize]
    rfl
  have hreq : (retrieveIndividual server cls (.int id) SubsetArg.none).requests =
      [⟨"GET", cls.get_url (.int id)⟩] := by
    rw [retrieveIndividual_requests server cls (.int id) .none hget]
    rfl
  have hmain : jss_post server cls url_path payload =
      ⟨.ok (.object cls.name (server.getResp (cls.get_url (.int id)))),
       [⟨"POST", url_path⟩, ⟨"GET", cls.get_url (.int id)⟩]⟩ := by
    obtain ⟨getR, postR⟩ := server
    dsimp only at hresp hres hreq ⊢
    simp only [jss_post]
    rw [hresp]
    dsimp only
    rw [h201]
    rw [if_neg (by decide : ¬(201 ≥ 400))]
    rw [hid]
    dsimp only
    rw [hres, hreq]
  refine ⟨hmain, ?_⟩
  rw [hmain,
    get_object_fetch_eq server cls (.int id) .none .none rfl rfl, hres]

/-- Witness for C3: a concrete 201 create against the stub server whose
body carries `<id>7</id>`; the returned object wraps the re-fetched GET
response, and the log shows the POST followed by the GET on `/id/7`. -/
theorem claim3_witness :
    stubServer.postResp "/activationcode/id/0"
        ((Element.mk "activation_code" Option.none []).tostring) =
      (201, "<activation_code><id>7</id></activation_code>") ∧
    searchId "<activation_code><id>7</id></activation_code>" =
      Option.some 7 ∧
    jss_post stubServer singletonType "/activationcode/id/0"
        (Element.mk "activation_code" Option.none []) =
      ⟨.ok (.object "ActivationCode" stubResponse),
       [⟨"POST", "/activationcode/id/0"⟩, ⟨"GET", "/activationcode/id/7"⟩]⟩ :=
  ⟨rfl, rfl,
   (claim3_post_refetches stubServer singletonType "/activationcode/id/0"
      (Element.mk "activation_code" Option.none []) 7 201
      "<activation_code><id>7</id></activation_code>" rfl rfl rfl rfl rfl).1⟩

/-- Claim C4: an identifier or name fetch with a requested subset issues
its GET on the instance URL extended by `"/subset/"` and the `&`-joined
tags; `"general"` is among the tags even when the caller omitted it, and
every caller tag is kept. -/
theorem claim4_subset_url (server : Server) (cls : ObjClass) (data : Data)
    (subset : SubsetArg) (l : List String)
    (hget : cls.can_get = true) (hfetch : data.isFetch = true)
    (hnorm : normalizeSubset subset = .ok (.list l)) (hne : l ≠ []) :
    ∃ tags, (get_object server cls data subset).requests =
        [⟨"GET", cls.get_url data ++ "/subset/" ++ String.intercalate "&" tags⟩] ∧
      "general" ∈ tags ∧ ∀ t ∈ l, t ∈ tags := by
  refine ⟨if l.contains "general" then l else l ++ ["general"], ?_, ?_, ?_⟩
  · have hurl : fetchSubsetUrl (cls.get_url data) (.list l) =
        cls.get_url data ++ "/subset/" ++
          String.intercalate "&"
            (if l.contains "general" then l else l ++ ["general"]) := by
      unfold fetchSubsetUrl
      have htr : SubsetArg.truthy (.list l) = true := by
        simp [SubsetArg.truthy, hne]
      rw [htr]
      rfl
    rw [get_object_fetch_eq server cls data subset (.list l) hfetch hnorm,
      retrieveIndividual_requests server cls data (.list l) hget, hurl]
  · by_cases hg : l.contains "general"
    · rw [if_pos hg]
      exact List.elem_iff.mp hg
    · rw [if_neg hg]
      exact List.mem_append_right l (by simp)
  · intro t ht
    by_cases hg : l.contains "general"
    · rw [if_pos hg]
      exact ht
    · rw [if_neg hg]
      exact List.mem_append_left _ ht

/-- Witness for C4: requesting subset `["purchasing"]` by identifier
yields a GET whose URL joins `purchasing` and the force-included
`general`. -/
theorem claim4_witness :
    normalizeSubset (.list ["purchasing"]) = .ok (.list ["purchasing"]) ∧
    (∃ tags, (get_object stubServer computerType (.int 5)
          (.list ["purchasing"])).requests =
        [⟨"GET", "/computers/id/5" ++ "/subset/" ++
          String.intercalate "&" tags⟩] ∧
      "general" ∈ tags ∧ ∀ t ∈ ["purchasing"], t ∈ tags) :=
  ⟨rfl,
   claim4_subset_url stubServer computerType (.int 5) (.list ["purchasing"])
     ["purchasing"] rfl rfl rfl (by decide)⟩

/-- Claim C5: an identifier or name fetch on a get-supporting type returns
the heterogeneous collection built from the response when the response
has a `"size"` child, and a single resource object wrapping the response
otherwise. -/
theorem claim5_size_routing (server : Server) (cls : ObjClass) (data : Data)
    (subset sub : SubsetArg)
    (hget : cls.can_get = true) (hfetch : data.isFetch = true)
    (hnorm : normalizeSubset subset = .ok sub) :
    (((server.getResp (fetchSubsetUrl (cls.get_url data) sub)).find "size" ≠
        Option.none →
      (get_object server cls data subset).result =
        .ok (build_jss_object_list
          (server.getResp (fetchSubsetUrl (cls.get_url data) sub)) cls)) ∧
     ((server.getResp (fetchSubsetUrl (cls.get_url data) sub)).find "size" =
        Option.none →
      (get_object server cls data subset).result =
        .ok (.object cls.name
          (server.getResp (fetchSubsetUrl (cls.get_url data) sub))))) := by
  rw [get_object_fetch_eq server cls data subset sub hfetch hnorm,
    retrieveIndividual_result server cls data sub hget]
  constructor
  · intro hsome
    rw [if_pos (Option.isSome_iff_ne_none.mpr hsome)]
  · intro hnone
    have hfalse : ¬(((server.getResp (fetchSubsetUrl (cls.get_url data)
        sub)).find "size").isSome = true) := by
      simp [hnone]
    rw [if_neg hfalse]

def sizedEntity : Element :=
  .mk "computer" Option.none
    [.mk "id" (Option.some "9") [], .mk "name" (Option.some "mbp") []]

def sizedResponse : Element :=
  .mk "computers" Option.none [sizedEntity, .mk "size" (Option.some "1") []]

def sizedServer : Server :=
  ⟨fun _ => sizedResponse, fun _ _ => (201, "")⟩

/-- Witness for C5: both routes at concrete inputs — a response with a
`"size"` child becomes a collection; one without becomes a single
object. -/
theorem claim5_witness :
    sizedResponse.find "size" ≠ Option.none ∧
    (get_object sizedServer computerType (.str "mbp") .none).result =
      .ok (build_jss_object_list sizedResponse computerType) ∧
    stubResponse.find "size" = Option.none ∧
    (get_object stubServer singletonType (.int 3) .none).result =
      .ok (.object "ActivationCode" stubResponse) := by
  refine ⟨?_, ?_, rfl, ?_⟩
  · intro h
    exact Option.noConfusion h
  · exact (claim5_size_routing sizedServer computerType (.str "mbp") .none
      .none rfl rfl rfl).1 (fun h => Option.noConfusion h)
  · exact (claim5_size_routing stubServer singletonType (.int 3) .none
      .none rfl rfl rfl).2 rfl

/-- The request log of a no-argument call on a list+get type: one GET on
the collection URL, suffixed with `"/subset/basic"` exactly when the
shortcut condition holds. -/
theorem listObjects_requests (server : Server) (cls : ObjClass)
    (sub : SubsetArg) (hlist : cls.can_list = true) (hget : cls.can_get = true) :
    (listObjects server cls sub).requests =
      [⟨"GET", if basicShortcut sub cls then
          cls.get_url .none ++ "/subset/basic" else cls.get_url .none⟩] := by
  unfold listObjects
  rw [hlist, hget]
  dsimp only
  rw [if_pos (by decide : ((true && true : Bool) = true))]
  generalize (if basicShortcut sub cls = true then
    cls.get_url .none ++ "/subset/basic" else cls.get_url .none) = u
  rcases hcon : cls.container with _ | c
  · rfl
  · rcases hf : (server.getResp u).find c with _ | inner
    · simp only [hf]
    · simp only [hf]

/-- Claim C9: on a no-argument listing for a list+get type, the GET URL is
the collection URL suffixed with `"/subset/basic"` exactly when the
normalized subset is one tag that uppercases to `"BASIC"` and the type
is `Computer`. -/
theorem claim9_basic_shortcut (server : Server) (cls : ObjClass)
    (subset sub : SubsetArg)
    (hlist : cls.can_list = true) (hget : cls.can_get = true)
    (hnorm : normalizeSubset subset = .ok sub) :
    ((get_object server cls .none subset).requests =
        [⟨"GET", cls.get_url .none ++ "/subset/basic"⟩] ↔
      ((∃ t, sub = .list [t] ∧ pyUpper t = "BASIC") ∧
        cls.isComputer = true)) := by
  have hred : get_object server cls .none subset =
      listObjects server cls sub := by
    unfold get_object
    rw [hnorm]
  rw [hred, listObjects_requests server cls sub hlist hget,
    ← basicShortcut_eq_true_iff sub cls]
  by_cases hb : basicShortcut sub cls = true
  · rw [hb]
    simp
  · have hb' : basicShortcut sub cls = false := by
      cases hbs : basicShortcut sub cls
      · rfl
      · exact absurd hbs hb
    rw [hb']
    simp only [Bool.false_eq_true, if_false]
    constructor
    · intro h
      simp only [List.cons.injEq, HttpReq.mk.injEq, and_true, true_and] at h
      exact absurd h (string_ne_append_of_length_pos (cls.get_url .none)
        "/subset/basic" (by decide))
    · intro h
      exact h.elim

/-- Witness for C9: a `Computer` listing with subset `"Basic"` GETs
`"/computers/subset/basic"`. -/
theorem claim9_witness :
    computerType.can_list = true ∧ computerType.can_get = true ∧
    normalizeSubset (.str "Basic") = .ok (.list ["Basic"]) ∧
    (get_object stubServer computerType .none (.str "Basic")).requests =
      [⟨"GET", "/computers" ++ "/subset/basic"⟩] :=
  ⟨rfl, rfl, rfl,
   (claim9_basic_shortcut stubServer computerType (.str "Basic")
      (.list ["Basic"]) rfl rfl rfl).mpr
     ⟨⟨"Basic", rfl, by decide⟩, rfl⟩⟩

/-- Claim C10: on a no-argument listing for a list+get type, any valid
subset (list or string) other than the single case-insensitive
`"basic"` tag on `Computer` is silently ignored: the whole outcome —
result and request log — is the one of the same call with no subset. -/
theorem claim10_subset_ignored (server : Server) (cls : ObjClass)
    (subset sub : SubsetArg)
    (hlist : cls.can_list = true) (hget : cls.can_get = true)
    (hvalid : (∃ l, subset = SubsetArg.list l) ∨
      (∃ s, subset = SubsetArg.str s))
    (hnorm : normalizeSubset subset = .ok sub)
    (hnotbasic : ¬((∃ t, sub = .list [t] ∧ pyUpper t = "BASIC") ∧
      cls.isComputer = true)) :
    get_object server cls .none subset = get_object server cls .none .none := by
  have hb : basicShortcut sub cls = false := by
    cases hbs : basicShortcut sub cls
    · rfl
    · exact absurd ((basicShortcut_eq_true_iff sub cls).mp hbs) hnotbasic
  have hred : get_object server cls .none subset =
      listObjects server cls sub := by
    unfold get_object
    rw [hnorm]
  have hred0 : get_object server cls .none .none =
      listObjects server cls .none := rfl
  rw [hred, hred0]
  unfold listObjects
  rw [hb]
  rfl

/-- Witness for C10: subset `["purchasing"]` on a `Computer` listing
produces the same outcome as the subset-free call. -/
theorem claim10_witness :
    normalizeSubset (.list ["purchasing"]) = .ok (.list ["purchasing"]) ∧
    get_object stubServer computerType .none (.list ["purchasing"]) =
      get_object stubServer computerType .none .none :=
  ⟨rfl,
   claim10_subset_ignored stubServer computerType (.list ["purchasing"])
     (.list ["purchasing"]) rfl rfl (Or.inl ⟨["purchasing"], rfl⟩) rfl
     (by
       rintro ⟨⟨t, ht, hup⟩, _⟩
       cases ht
       exact absurd hup (by decide))⟩

end JSSModel
